import Mathlib

/-!
Shallow embedding of the hypertrophy-tracker core (src/logic.py and src/app.py),
with the claims of the natural-language specification settled as theorems.
Loads are modelled as exact rationals; Python's `round` (round-half-to-even)
is modelled by `pyRound`.
-/

namespace HT

/-- Python's built-in `round` to an integer: round half to even. -/
def pyRound (q : ℚ) : ℤ :=
  let f := q.floor
  let r := q - (f : ℚ)
  if r < 1/2 then f
  else if 1/2 < r then f + 1
  else if f % 2 = 0 then f else f + 1

/-- Python's `round(q, 2)`: round to two decimal places, half to even. -/
def pyRound2 (q : ℚ) : ℚ := (pyRound (q * 100) : ℚ) / 100

/-- Embeds `round_to_2p5` from src/logic.py on a present value:
`round(round(float(x) / 2.5) * 2.5, 2)`. -/
def round_to_2p5q (x : ℚ) : ℚ := pyRound2 ((pyRound (x / (5/2)) : ℚ) * (5/2))

/-- Embeds `round_to_2p5` from src/logic.py: `None` passes through. -/
def round_to_2p5 (x : Option ℚ) : Option ℚ := x.map round_to_2p5q

/-- Embeds `amrap_threshold` from src/logic.py. -/
def amrap_threshold (high : ℤ) : ℤ :=
  if high ≤ 8 then 12
  else if high = 10 then 15
  else if high = 12 then 20
  else if high = 15 then 25
  else if 20 ≤ high then 30
  else 20

/-- The `load_last` entry of the dict handed to `compute_new_load`:
Python distinguishes `None`, the empty string `""`, and a numeric value
(`load_last in (None, "")` is the absence test). -/
inductive LoadField where
  | absent : LoadField
  | empty : LoadField
  | val : ℚ → LoadField
deriving DecidableEq

/-- The dict handed to `compute_new_load` (built in src/app.py `week_view`). -/
structure PRow where
  load_last : LoadField
  rep_high : ℤ
  increment : Option ℚ
  category : String
  sets : ℤ
  s1 : Option ℤ
  s2 : Option ℤ
  s3 : Option ℤ
  amrap : Option ℤ
deriving DecidableEq

/-- Embeds `compute_new_load` from src/logic.py.  Python's `x or 0` on an optional number is
`Option.getD 0` (Python maps both `None` and `0` to `0`). -/
def compute_new_load (row : PRow) : Option ℚ :=
  match row.load_last with
  | LoadField.absent => Option.none
  | LoadField.empty => Option.none
  | LoadField.val load_last =>
    let high := row.rep_high
    let inc := row.increment.getD 0
    if row.category = "compound" then
      let sets := row.sets
      let s1 := row.s1.getD 0
      let s2 := row.s2.getD 0
      let s3 := row.s3.getD 0
      if s1 ≥ high ∧ s2 ≥ high ∧ (s3 ≥ high ∨ sets < 3) then
        round_to_2p5 (some (load_last + inc))
      else
        round_to_2p5 (some load_last)
    else
      let thr := amrap_threshold high
      let amr := row.amrap.getD 0
      if amr ≥ thr then
        round_to_2p5 (some (load_last + inc))
      else
        round_to_2p5 (some load_last)

/-- One tuple of `PROGRAM_V1` in src/logic.py:
(exercise name, sets, rep_low, rep_high, category, increment). -/
structure ProgramEntry where
  name : String
  sets : ℕ
  rep_low : ℕ
  rep_high : ℕ
  category : String
  increment : ℚ
deriving DecidableEq

/-- Embeds `PROGRAM_V1` from src/logic.py (also exported as `DAYS`). -/
def PROGRAM_V1 : List (String × List ProgramEntry) :=
  [ ("Day 1 – Push (Chest/Shoulders/Triceps)",
      [ ⟨"Flat Barbell Bench Press", 3, 6, 8, "compound", 5/2⟩,
        ⟨"Incline Barbell Bench Press", 3, 8, 10, "compound", 5/2⟩,
        ⟨"Overhead Press (Barbell/DB)", 3, 6, 8, "compound", 5/2⟩,
        ⟨"Dumbbell/Cable Lateral Raise", 3, 12, 15, "accessory", 5/4⟩,
        ⟨"Rope Pushdown", 3, 12, 15, "accessory", 5/4⟩ ]),
    ("Day 2 – Pull (Back/Biceps/Rear Delts/Traps)",
      [ ⟨"Weighted Pull-Ups", 3, 6, 10, "compound", 5/2⟩,
        ⟨"Barbell Row", 3, 6, 8, "compound", 5/2⟩,
        ⟨"Lat Pulldown", 3, 10, 12, "compound", 5/2⟩,
        ⟨"Rear Delt Fly/Face Pull", 3, 12, 15, "accessory", 5/4⟩,
        ⟨"Barbell Curl", 3, 8, 10, "accessory", 5/4⟩ ]),
    ("Day 3 – Rest / Core",
      [ ⟨"Cable Crunch", 3, 15, 15, "accessory", 5/4⟩,
        ⟨"Hanging Knee/Leg Raise", 3, 8, 20, "accessory", 5/4⟩,
        ⟨"Weighted Sit-Ups", 3, 15, 15, "accessory", 5/4⟩ ]),
    ("Day 4 – Lower (Quads/Hams/Glutes/Calves)",
      [ ⟨"Back Squat", 3, 6, 8, "compound", 5⟩,
        ⟨"Romanian Deadlift", 3, 8, 10, "compound", 5⟩,
        ⟨"Bulgarian Split Squat", 3, 10, 12, "compound", 5/2⟩,
        ⟨"Standing Calf Raise", 3, 12, 15, "accessory", 5/2⟩,
        ⟨"Hip Thrust", 2, 8, 10, "compound", 5⟩ ]),
    ("Day 5 – Push (Chest/Shoulders/Triceps)",
      [ ⟨"DB Flat Press", 3, 8, 10, "compound", 5/2⟩,
        ⟨"Incline DB Press/Cable Fly", 3, 10, 12, "compound", 5/2⟩,
        ⟨"Seated DB Overhead Press", 3, 8, 10, "compound", 5/2⟩,
        ⟨"Cable Lateral Raise", 3, 12, 15, "accessory", 5/4⟩,
        ⟨"Close-Grip Bench Press", 3, 6, 8, "compound", 5/2⟩ ]),
    ("Day 6 – Pull (Back/Biceps/Rear Delts/Traps)",
      [ ⟨"Deadlift", 3, 4, 6, "compound", 5⟩,
        ⟨"Weighted Chin-Ups", 3, 6, 8, "compound", 5/2⟩,
        ⟨"One-Arm DB Row", 3, 8, 10, "compound", 5/2⟩,
        ⟨"Seated Cable Row", 3, 10, 12, "compound", 5/2⟩,
        ⟨"DB Rear Delt Fly", 3, 12, 15, "accessory", 5/4⟩,
        ⟨"Hammer Curl", 2, 10, 12, "accessory", 5/4⟩ ]),
    ("Day 7 – Rest / Core (optional)", []) ]

/-- Embeds `DAYS = PROGRAM_V1` from src/logic.py. -/
def DAYS : List (String × List ProgramEntry) := PROGRAM_V1

/-- Embeds `COMPOUND_RM_MAP` from src/logic.py, as `dict.get`. -/
def COMPOUND_RM_MAP (ex : String) : Option String :=
  if ex = "Back Squat" then some "squat"
  else if ex = "Flat Barbell Bench Press" then some "bench"
  else if ex = "Incline Barbell Bench Press" then some "bench"
  else if ex = "Overhead Press (Barbell/DB)" then some "ohp"
  else if ex = "DB Flat Press" then some "bench"
  else if ex = "Seated DB Overhead Press" then some "ohp"
  else if ex = "Barbell Row" then some "bench"
  else if ex = "Lat Pulldown" then some "bench"
  else if ex = "Deadlift" then some "deadlift"
  else if ex = "Romanian Deadlift" then some "deadlift"
  else if ex = "Weighted Pull-Ups" then some "bench"
  else if ex = "Weighted Chin-Ups" then some "bench"
  else if ex = "One-Arm DB Row" then some "bench"
  else if ex = "Seated Cable Row" then some "bench"
  else if ex = "Close-Grip Bench Press" then some "bench"
  else if ex = "Hip Thrust" then some "deadlift"
  else Option.none

/-- The tested-max store (the `bench`/`squat`/`deadlift`/`ohp` columns of the
Settings/State row in src/models.py; `None` = untested). -/
structure St where
  bench : Option ℚ
  squat : Option ℚ
  deadlift : Option ℚ
  ohp : Option ℚ
deriving DecidableEq

/-- Embeds `getattr(st, rm_key, None)` for the four lift columns. -/
def getRM (st : St) (key : String) : Option ℚ :=
  if key = "bench" then st.bench
  else if key = "squat" then st.squat
  else if key = "deadlift" then st.deadlift
  else if key = "ohp" then st.ohp
  else Option.none

/-- One `Log` row (src/models.py). -/
@[ext] structure Row where
  week : ℕ
  day : ℕ
  day_title : String
  exercise : String
  sets : ℕ
  rep_low : ℕ
  rep_high : ℕ
  category : String
  increment : ℚ
  load_last : Option ℚ
  s1 : Option ℤ
  s2 : Option ℤ
  s3 : Option ℤ
  amrap : Option ℤ
  new_load : Option ℚ
  notes : Option String
deriving DecidableEq

/-- Embeds `_percent_for_week` from src/app.py: `0.55 if week == 1 else 0.675`. -/
def percent_for_week (week : ℕ) : ℚ :=
  if week = 1 then 11/20 else 27/40

/-- Embeds `_round_kg_to_2p5` from src/app.py: `round(x / 2.5) * 2.5`. -/
def round_kg_to_2p5 (x : ℚ) : ℚ :=
  (pyRound (x / (5/2)) : ℚ) * (5/2)

/-- Embeds `seed_from_rms_for_row` from src/app.py.  Python's first guard
(`load_last not in (None, 0) and load_last is not None`) is a plain
not-in-(None, 0) test; `if not one_rm` treats both a missing and a zero
tested max as absent. -/
def seed_from_rms_for_row (row : Row) (st : St) (week : ℕ)
    (rm_map : String → Option String) : Row :=
  if row.load_last ≠ Option.none ∧ row.load_last ≠ some 0 then row
  else if ¬ (week = 1 ∨ week = 2) then row
  else
    match rm_map row.exercise with
    | Option.none => row
    | some rm_key =>
      match getRM st rm_key with
      | Option.none => row
      | some one_rm =>
        if one_rm = 0 then row
        else { row with load_last := some (round_kg_to_2p5 (one_rm * percent_for_week week)) }

/-- The row-lookup predicate of `init_week_rows`:
`Log.week == week, Log.day == day, Log.exercise == ex_name`. -/
def keyMatch (week day : ℕ) (name : String) (r : Row) : Bool :=
  r.week == week && r.day == day && r.exercise == name

/-- Update the first element satisfying `p` (the `.first()` row the session
query returns), leaving the rest of the table untouched. -/
def mapFirst (p : Row → Bool) (f : Row → Row) : List Row → List Row
  | [] => []
  | r :: rs => if p r then f r :: rs else r :: mapFirst p f rs

/-- The else-branch of `init_week_rows` on an existing row: sync metadata with
the program, clear a stale AMRAP for non-accessories, and re-seed a still
blank Week-1/2 load. -/
def reconcileRow (day_title : String) (e : ProgramEntry) (st : St) (week : ℕ)
    (r : Row) : Row :=
  let r1 := { r with day_title := day_title, sets := e.sets, rep_low := e.rep_low,
                     rep_high := e.rep_high, category := e.category,
                     increment := e.increment }
  let r2 := if r1.category ≠ "accessory" then { r1 with amrap := Option.none } else r1
  if r2.load_last = Option.none ∨ r2.load_last = some 0 then
    seed_from_rms_for_row r2 st week COMPOUND_RM_MAP
  else r2

/-- The `row is None` branch of `init_week_rows`: a fresh `Log` row with the
program metadata, absent user data, seeded for week 1/2 when an RM exists. -/
def freshRow (week day : ℕ) (day_title : String) (e : ProgramEntry) (st : St) : Row :=
  seed_from_rms_for_row
    { week := week, day := day, day_title := day_title, exercise := e.name,
      sets := e.sets, rep_low := e.rep_low, rep_high := e.rep_high,
      category := e.category, increment := e.increment,
      load_last := Option.none, s1 := Option.none, s2 := Option.none,
      s3 := Option.none, amrap := Option.none, new_load := Option.none,
      notes := Option.none }
    st week COMPOUND_RM_MAP

/-- One (day, exercise) iteration of `init_week_rows`. -/
def processEntry (st : St) (week : ℕ) (k : ℕ × String × ProgramEntry)
    (rows : List Row) : List Row :=
  let p := keyMatch week k.1 k.2.2.name
  if rows.any p then mapFirst p (reconcileRow k.2.1 k.2.2 st week) rows
  else rows ++ [freshRow week k.1 k.2.1 k.2.2 st]

/-- Embeds `enumerate(DAYS, start=1)` flattened with its inner exercise loop. -/
def flatEntriesAux : ℕ → List (String × List ProgramEntry) → List (ℕ × String × ProgramEntry)
  | _, [] => []
  | i, (t, exs) :: rest => (exs.map fun e => (i, t, e)) ++ flatEntriesAux (i + 1) rest

/-- All (day index, day title, program entry) triples `init_week_rows` visits. -/
def flatEntries : List (ℕ × String × ProgramEntry) := flatEntriesAux 1 DAYS

/-- Embeds `init_week_rows` from src/app.py, as a pure transformation of the log
table (list of rows) for a fixed tested-max state. -/
def init_week_rows (week : ℕ) (st : St) (rows : List Row) : List Row :=
  flatEntries.foldl (fun rs k => processEntry st week k rs) rows

/-- Embeds `epley_1rm` from src/app.py.  Python's `not weight_kg or weight_kg <= 0 or not reps
or reps < 1` collapses to `weight_kg ≤ 0 ∨ reps < 1` on numbers. -/
def epley_1rm (weight_kg : ℚ) (reps : ℤ) : ℚ :=
  if weight_kg = 0 ∨ weight_kg ≤ 0 ∨ reps = 0 ∨ reps < 1 then 0
  else weight_kg * (1 + (reps : ℚ) / 30)

/-- The four lift keys of the tested-max store. -/
inductive Lift where
  | bench : Lift
  | squat : Lift
  | deadlift : Lift
  | ohp : Lift
deriving DecidableEq

def St.getLift (st : St) : Lift → Option ℚ
  | Lift.bench => st.bench
  | Lift.squat => st.squat
  | Lift.deadlift => st.deadlift
  | Lift.ohp => st.ohp

def St.setLift (st : St) : Lift → ℚ → St
  | Lift.bench, v => { st with bench := some v }
  | Lift.squat, v => { st with squat := some v }
  | Lift.deadlift, v => { st with deadlift := some v }
  | Lift.ohp, v => { st with ohp := some v }

/-- Embeds `ESTIMATED_RM_MAP` from src/app.py, as `dict.get`. -/
def ESTIMATED_RM_MAP (ex : String) : Option Lift :=
  if ex = "Back Squat" then some Lift.squat
  else if ex = "Flat Barbell Bench Press" then some Lift.bench
  else if ex = "Close-Grip Bench Press" then some Lift.bench
  else if ex = "Overhead Press (Barbell/DB)" then some Lift.ohp
  else if ex = "Seated DB Overhead Press" then some Lift.ohp
  else if ex = "Deadlift" then some Lift.deadlift
  else Option.none

/-- Embeds `max([r.s1 or 0, r.s2 or 0, r.s3 or 0])` from the updater loop. -/
def maxReps (r : Row) : ℤ :=
  max (r.s1.getD 0) (max (r.s2.getD 0) (r.s3.getD 0))

/-- The `best_est` accumulation loop of `update_1rms_from_rows`:
skip unmapped rows, rows with `max_reps` falsy, and rows with a falsy
`load_last`; keep the best Epley estimate per lift key. -/
def bestEst (rows : List Row) : Lift → ℚ :=
  rows.foldl
    (fun b r =>
      match ESTIMATED_RM_MAP r.exercise with
      | Option.none => b
      | some rm_key =>
        if maxReps r = 0 ∨ r.load_last = Option.none ∨ r.load_last = some 0 then b
        else
          let est := epley_1rm (r.load_last.getD 0) (maxReps r)
          if est > b rm_key then (fun k => if k = rm_key then est else b k) else b)
    (fun _ => 0)

/-- The compare-and-update step over one lift key of `update_1rms_from_rows`:
`current = getattr(settings_obj, key, None) or 0.0`. -/
def prStep (best : Lift → ℚ) (acc : St × List (Lift × ℚ × ℚ)) (key : Lift) :
    St × List (Lift × ℚ × ℚ) :=
  let current := (acc.1.getLift key).getD 0
  if best key > current then
    (acc.1.setLift key (best key), acc.2 ++ [(key, current, best key)])
  else acc

/-- Embeds `update_1rms_from_rows` from src/app.py: returns the updated tested-max
store together with the emitted personal-record triples. -/
def update_1rms_from_rows (st : St) (rows : List Row) : St × List (Lift × ℚ × ℚ) :=
  [Lift.bench, Lift.squat, Lift.deadlift, Lift.ohp].foldl
    (prStep (bestEst rows)) (st, [])

/-- The metadata-sync stage of the reconcile branch of `init_week_rows`
(everything before the re-seeding step). -/
def reconMeta (day_title : String) (e : ProgramEntry) (r : Row) : Row :=
  let r1 := { r with day_title := day_title, sets := e.sets, rep_low := e.rep_low,
                     rep_high := e.rep_high, category := e.category,
                     increment := e.increment }
  if r1.category ≠ "accessory" then { r1 with amrap := Option.none } else r1

/-- The AMRAP threshold table exactly as the specification lists it. -/
def amrapThresholdSpec (repHigh : ℤ) : ℤ :=
  if repHigh ≤ 8 then 12
  else if repHigh = 10 then 15
  else if repHigh = 12 then 20
  else if repHigh = 15 then 25
  else if repHigh ≥ 20 then 30
  else 20

/-- Concrete instance for claim C1 (spec example scenario 1):
compound, repHigh 8, sets 3, increment 2.5, load 100, reps 8/8/8. -/
def rowC1 : PRow :=
  ⟨LoadField.val 100, 8, some (5/2), "compound", 3, some 8, some 8, some 8, Option.none⟩

/-- Concrete instance for claim C2: accessory, repHigh 15 (threshold 25),
load 30, increment 2.5, AMRAP 26. -/
def rowC2 : PRow :=
  ⟨LoadField.val 30, 15, some (5/2), "accessory", 3, some 15, some 15, some 26, some 26⟩

/-- The accessory row of spec example scenario 3 with AMRAP 22. -/
def rowC6hit : PRow :=
  ⟨LoadField.val 20, 12, some (5/4), "accessory", 3, some 12, some 12, some 22, some 22⟩

/-- The accessory row of spec example scenario 3 with AMRAP 15. -/
def rowC6miss : PRow :=
  ⟨LoadField.val 20, 12, some (5/4), "accessory", 3, some 12, some 12, some 15, some 15⟩

/-- Concrete instance for claim C10: same data as scenario 1. -/
def rowC10 : PRow :=
  ⟨LoadField.val 100, 8, some (5/2), "compound", 3, some 8, some 8, some 8, some 8⟩

/-- A tested-max store with only the squat max set (140 kg). -/
def st140 : St := ⟨Option.none, some 140, Option.none, Option.none⟩

/-- A blank week-1 Back Squat row awaiting seeding. -/
def rowBS : Row :=
  ⟨1, 4, "Day 4 – Lower (Quads/Hams/Glutes/Calves)", "Back Squat", 3, 6, 8, "compound", 5,
   Option.none, Option.none, Option.none, Option.none, Option.none, Option.none, Option.none⟩

/-- A completed week-2 Back Squat row with a computed next load of 100 kg. -/
def rowBSw2 : Row :=
  ⟨2, 4, "Day 4 – Lower (Quads/Hams/Glutes/Calves)", "Back Squat", 3, 6, 8, "compound", 5,
   some 90, some 8, some 8, some 8, Option.none, some 100, Option.none⟩

/-- A populated compound row for the reconcile frame claim. -/
def rowC8 : Row :=
  ⟨5, 1, "old title", "Flat Barbell Bench Press", 4, 5, 9, "accessory", 5/4,
   some 100, some 8, some 7, some 6, some 11, some (205/2), some "felt heavy"⟩

/-- The program entry for Flat Barbell Bench Press used with `rowC8`. -/
def entryC8 : ProgramEntry := ⟨"Flat Barbell Bench Press", 3, 6, 8, "compound", 5/2⟩

/-- A log table is settled for one program entry when the first row matching
its (week, day, exercise) key exists and reconciling that row again changes
nothing. -/
def Settled (st : St) (week : ℕ) (k : ℕ × String × ProgramEntry)
    (rows : List Row) : Prop :=
  ∃ r, rows.find? (keyMatch week k.1 k.2.2.name) = some r ∧
    reconcileRow k.2.1 k.2.2 st week r = r

theorem ratFloor_eq_floor (q : ℚ) : q.floor = ⌊q⌋ := by
  rw [Rat.floor_def', Rat.floor_def]

theorem pyRound_intCast (n : ℤ) : pyRound (n : ℚ) = n := by
  unfold pyRound
  rw [ratFloor_eq_floor, Int.floor_intCast]
  norm_num

theorem round_to_2p5q_eq (x : ℚ) :
    round_to_2p5q x = (pyRound (x / (5/2)) : ℚ) * (5/2) := by
  unfold round_to_2p5q pyRound2
  have h : ((pyRound (x / (5/2)) : ℚ) * (5/2)) * 100
      = ((pyRound (x / (5/2)) * 250 : ℤ) : ℚ) := by push_cast; ring
  rw [h, pyRound_intCast]
  push_cast
  ring

theorem round_to_2p5q_idem (x : ℚ) :
    round_to_2p5q (round_to_2p5q x) = round_to_2p5q x := by
  rw [round_to_2p5q_eq x, round_to_2p5q_eq]
  have h : (pyRound (x / (5/2)) : ℚ) * (5/2) / (5/2) = (pyRound (x / (5/2)) : ℚ) := by
    field_simp
  rw [h, pyRound_intCast]

theorem round_kg_eq_round_to_2p5q (x : ℚ) : round_kg_to_2p5 x = round_to_2p5q x :=
  (round_to_2p5q_eq x).symm

theorem compute_new_load_absent (row : PRow) (hl : row.load_last = LoadField.absent) :
    compute_new_load row = Option.none := by
  unfold compute_new_load
  rw [hl]

theorem compute_new_load_empty (row : PRow) (hl : row.load_last = LoadField.empty) :
    compute_new_load row = Option.none := by
  unfold compute_new_load
  rw [hl]

/-- Branch structure of compute_new_load on a row with a present used load. -/
theorem compute_new_load_val (row : PRow) (l : ℚ) (hl : row.load_last = LoadField.val l) :
    compute_new_load row =
      if row.category = "compound" then
        if row.s1.getD 0 ≥ row.rep_high ∧ row.s2.getD 0 ≥ row.rep_high ∧
            (row.s3.getD 0 ≥ row.rep_high ∨ row.sets < 3)
        then some (round_to_2p5q (l + row.increment.getD 0))
        else some (round_to_2p5q l)
      else
        if row.amrap.getD 0 ≥ amrap_threshold row.rep_high
        then some (round_to_2p5q (l + row.increment.getD 0))
        else some (round_to_2p5q l) := by
  unfold compute_new_load
  rw [hl]
  dsimp only
  split_ifs <;> rfl

/-- Claim C1: for a compound row with a present used load, the result is the
rounded incremented load exactly when every prescribed set reaches the top of
the rep range (third set waived for fewer than 3 sets), and the rounded
unchanged load otherwise; it is never absent. -/
theorem claim_C1_compound_rule (row : PRow) (l : ℚ)
    (hc : row.category = "compound") (hl : row.load_last = LoadField.val l) :
    compute_new_load row =
      some (round_to_2p5q
        (if row.s1.getD 0 ≥ row.rep_high ∧ row.s2.getD 0 ≥ row.rep_high ∧
            (row.s3.getD 0 ≥ row.rep_high ∨ row.sets < 3)
         then l + row.increment.getD 0 else l)) := by
  rw [compute_new_load_val row l hl, if_pos hc]
  split_ifs <;> rfl

theorem claim_C1_witness :
    rowC1.category = "compound" ∧ rowC1.load_last = LoadField.val 100 ∧
    compute_new_load rowC1 = some (205/2) := by
  refine ⟨rfl, rfl, ?_⟩
  rw [claim_C1_compound_rule rowC1 100 rfl rfl]
  norm_num [rowC1, round_to_2p5q, pyRound2, pyRound, ratFloor_eq_floor]

/-- Claim C2: for an accessory row with a present used load, the result is the
rounded incremented load exactly when the AMRAP count (absent defaulting to 0)
reaches the threshold for the row's repHigh, and the rounded unchanged load
otherwise; the threshold function agrees with the specification's table. -/
theorem claim_C2_accessory_rule :
    (∀ (row : PRow) (l : ℚ), row.category = "accessory" →
      row.load_last = LoadField.val l →
      compute_new_load row =
        some (round_to_2p5q
          (if row.amrap.getD 0 ≥ amrap_threshold row.rep_high
           then l + row.increment.getD 0 else l))) ∧
    (∀ h : ℤ, amrap_threshold h = amrapThresholdSpec h) := by
  constructor
  · intro row l hc hl
    have hnc : ¬ row.category = "compound" := by rw [hc]; decide
    rw [compute_new_load_val row l hl, if_neg hnc]
    split_ifs <;> rfl
  · intro h
    rfl

theorem claim_C2_witness :
    rowC2.category = "accessory" ∧ rowC2.load_last = LoadField.val 30 ∧
    compute_new_load rowC2 = some (65/2) := by
  refine ⟨rfl, rfl, ?_⟩
  rw [claim_C2_accessory_rule.1 rowC2 30 rfl rfl]
  norm_num [rowC2, amrap_threshold, round_to_2p5q, pyRound2, pyRound, ratFloor_eq_floor]

/-- Claim C6 is false on the code: at repHigh 12, load 20, increment 1.25 and
AMRAP 22, compute_new_load returns 20, not the claimed 21.25 — rounding
20 + 1.25 to the 2.5 grid lands on the half point 8.5, and round-half-to-even
sends it back down to 20. -/
theorem claim_C6_counterexample :
    compute_new_load rowC6hit = some 20 ∧ compute_new_load rowC6hit ≠ some (85/4) := by
  have h : compute_new_load rowC6hit = some 20 := by
    simp only [compute_new_load, round_to_2p5, round_to_2p5q, pyRound2, pyRound,
      ratFloor_eq_floor, rowC6hit, Option.map, Option.getD, amrap_threshold]
    norm_num
  exact ⟨h, by rw [h]; intro hc; rw [Option.some.injEq] at hc; norm_num at hc⟩

/-- Claim C6 as amended: at repHigh 12 (threshold 20), load 20 and increment
1.25, the result is 20 both for AMRAP 22 and for AMRAP 15 (the sub-grid
increment is rounded away); in general an accessory row's load moves to the
rounded incremented load — not necessarily a strictly larger load — exactly
when the AMRAP count reaches the threshold. -/
theorem claim_C6_amended :
    compute_new_load rowC6hit = some 20 ∧
    compute_new_load rowC6miss = some 20 ∧
    (∀ (row : PRow) (l : ℚ), row.category = "accessory" →
      row.load_last = LoadField.val l →
      compute_new_load row =
        some (if row.amrap.getD 0 ≥ amrap_threshold row.rep_high
              then round_to_2p5q (l + row.increment.getD 0) else round_to_2p5q l)) := by
  refine ⟨?_, ?_, ?_⟩
  · simp only [compute_new_load, round_to_2p5, round_to_2p5q, pyRound2, pyRound,
      ratFloor_eq_floor, rowC6hit, Option.map, Option.getD, amrap_threshold]
    norm_num
  · simp only [compute_new_load, round_to_2p5, round_to_2p5q, pyRound2, pyRound,
      ratFloor_eq_floor, rowC6miss, Option.map, Option.getD, amrap_threshold]
    norm_num
  · intro row l hc hl
    have hnc : ¬ row.category = "compound" := by rw [hc]; decide
    rw [compute_new_load_val row l hl, if_neg hnc]
    split_ifs <;> rfl

theorem claim_C6_amended_witness :
    rowC6hit.category = "accessory" ∧ rowC6hit.load_last = LoadField.val 20 ∧
    compute_new_load rowC6hit =
      some (if rowC6hit.amrap.getD 0 ≥ amrap_threshold rowC6hit.rep_high
            then round_to_2p5q (20 + rowC6hit.increment.getD 0) else round_to_2p5q 20) :=
  ⟨rfl, rfl, claim_C6_amended.2.2 rowC6hit 20 rfl rfl⟩

/-- Claim C7: the result is absent exactly when the used load is absent (None
or the empty string); on every row with a present used load the function
totally evaluates to a present value, whatever fields are missing. -/
theorem claim_C7_absence (row : PRow) :
    compute_new_load row = Option.none ↔
      row.load_last = LoadField.absent ∨ row.load_last = LoadField.empty := by
  cases hl : row.load_last with
  | absent => simp [compute_new_load, hl]
  | empty => simp [compute_new_load, hl]
  | val l =>
    rw [compute_new_load_val row l hl]
    constructor
    · intro h
      split_ifs at h
    · intro h
      rcases h with h | h <;> exact LoadField.noConfusion h

/-- Claim C10: every present result of compute_new_load is a fixed point of
the 2.5-kg rounding rule, i.e. lies on the 2.5 grid, whatever the increment. -/
theorem claim_C10_grid (row : PRow) (v : ℚ) (h : compute_new_load row = some v) :
    round_to_2p5q v = v ∧ ∃ k : ℤ, v = (5/2) * (k : ℚ) := by
  have hv : ∃ x : ℚ, v = round_to_2p5q x := by
    cases hl : row.load_last with
    | absent =>
      rw [compute_new_load_absent row hl] at h
      exact absurd h (by simp)
    | empty =>
      rw [compute_new_load_empty row hl] at h
      exact absurd h (by simp)
    | val l =>
      rw [compute_new_load_val row l hl] at h
      split_ifs at h <;> (rw [Option.some.injEq] at h; exact ⟨_, h.symm⟩)
  obtain ⟨x, hx⟩ := hv
  subst hx
  refine ⟨round_to_2p5q_idem x, pyRound (x / (5/2)), ?_⟩
  rw [round_to_2p5q_eq]
  ring

theorem claim_C10_witness :
    compute_new_load rowC10 = some (205/2) ∧ round_to_2p5q (205/2) = 205/2 := by
  have h : compute_new_load rowC10 = some (205/2) := by
    simp only [compute_new_load, round_to_2p5, round_to_2p5q, pyRound2, pyRound,
      ratFloor_eq_floor, rowC10, Option.map, Option.getD]
    norm_num
  exact ⟨h, (claim_C10_grid rowC10 (205/2) h).1⟩

theorem getLift_setLift_same (st : St) (k : Lift) (v : ℚ) :
    (st.setLift k v).getLift k = some v := by
  cases k <;> rfl

theorem getLift_setLift_other (st : St) (k k' : Lift) (v : ℚ) (h : k' ≠ k) :
    (st.setLift k v).getLift k' = st.getLift k' := by
  cases k <;> cases k' <;> first | rfl | exact absurd rfl h

/-- After the updater runs, a lift's stored max is the best estimate when that
strictly beat the previous value (absent read as 0), and unchanged otherwise. -/
theorem update_getLift_eq (st : St) (rows : List Row) (key : Lift) :
    (update_1rms_from_rows st rows).1.getLift key =
      if (st.getLift key).getD 0 < bestEst rows key
      then some (bestEst rows key) else st.getLift key := by
  cases key <;>
    (simp only [update_1rms_from_rows, List.foldl, prStep]
     split_ifs <;> simp_all [getLift_setLift_same, getLift_setLift_other])

/-- The personal-record triple for a lift is emitted exactly when the best
estimate strictly beat the stored value. -/
theorem update_mem_iff (st : St) (rows : List Row) (key : Lift) :
    ((key, (st.getLift key).getD 0, bestEst rows key) ∈
        (update_1rms_from_rows st rows).2) ↔
      (st.getLift key).getD 0 < bestEst rows key := by
  cases key <;>
    (simp only [update_1rms_from_rows, List.foldl, prStep]
     split_ifs <;> simp_all [getLift_setLift_same, getLift_setLift_other])

/-- Claim C9: the Epley estimator returns load times (1 + reps/30) exactly for
positive load and at least one rep and 0 otherwise; and the updater changes a
lift's stored tested max exactly when the best Epley estimate over the mapped
rows strictly exceeds it, in which case — and only then — the personal-record
triple (key, old value, new value) is returned to the caller. -/
theorem claim_C9_epley_and_pr :
    (∀ (w : ℚ) (reps : ℤ),
        epley_1rm w reps = if 0 < w ∧ 1 ≤ reps then w * (1 + (reps : ℚ) / 30) else 0) ∧
    (∀ (st : St) (rows : List Row) (key : Lift),
        ((update_1rms_from_rows st rows).1.getLift key ≠ st.getLift key ↔
          (st.getLift key).getD 0 < bestEst rows key) ∧
        ((update_1rms_from_rows st rows).1.getLift key =
          if (st.getLift key).getD 0 < bestEst rows key
          then some (bestEst rows key) else st.getLift key) ∧
        ((key, (st.getLift key).getD 0, bestEst rows key) ∈
            (update_1rms_from_rows st rows).2 ↔
          (st.getLift key).getD 0 < bestEst rows key)) := by
  constructor
  · intro w reps
    have hiff : (w = 0 ∨ w ≤ 0 ∨ reps = 0 ∨ reps < 1) ↔ ¬(0 < w ∧ 1 ≤ reps) := by
      constructor
      · rintro (h | h | h | h) ⟨hw, hr⟩ <;> linarith
      · intro h
        by_cases hw : 0 < w
        · have hr : ¬ 1 ≤ reps := fun hr => h ⟨hw, hr⟩
          right; right; right; omega
        · right; left; linarith
    unfold epley_1rm
    by_cases hc : 0 < w ∧ 1 ≤ reps
    · rw [if_neg (by rw [hiff]; exact not_not_intro hc), if_pos hc]
    · rw [if_pos (hiff.mpr hc), if_neg hc]
  · intro st rows key
    refine ⟨?_, update_getLift_eq st rows key, update_mem_iff st rows key⟩
    constructor
    · intro hne
      by_contra hnot
      rw [update_getLift_eq st rows key, if_neg hnot] at hne
      exact hne rfl
    · intro hlt
      rw [update_getLift_eq st rows key, if_pos hlt]
      cases hsk : st.getLift key with
      | none => simp
      | some v =>
        rw [hsk] at hlt
        simp only [Option.getD_some] at hlt
        intro hc
        rw [Option.some.injEq] at hc
        rw [hc] at hlt
        exact absurd hlt (lt_irrefl v)

theorem seed_id_of_load (row : Row) (st : St) (week : ℕ) (m : String → Option String)
    (h : row.load_last ≠ Option.none ∧ row.load_last ≠ some 0) :
    seed_from_rms_for_row row st week m = row := by
  unfold seed_from_rms_for_row
  rw [if_pos h]

theorem seed_id_of_week (row : Row) (st : St) (week : ℕ) (m : String → Option String)
    (h : ¬ (week = 1 ∨ week = 2)) :
    seed_from_rms_for_row row st week m = row := by
  unfold seed_from_rms_for_row
  split_ifs <;> rfl

theorem seed_id_of_map (row : Row) (st : St) (week : ℕ) (m : String → Option String)
    (h : m row.exercise = Option.none) :
    seed_from_rms_for_row row st week m = row := by
  unfold seed_from_rms_for_row
  split_ifs
  · rfl
  · simp only [h]
  · rfl

theorem seed_id_of_rm (row : Row) (st : St) (week : ℕ) (m : String → Option String)
    (k : String) (hk : m row.exercise = some k) (h : getRM st k = Option.none) :
    seed_from_rms_for_row row st week m = row := by
  unfold seed_from_rms_for_row
  split_ifs
  · rfl
  · simp only [hk, h]
  · rfl

theorem seed_id_of_zero (row : Row) (st : St) (week : ℕ) (m : String → Option String)
    (k : String) (hk : m row.exercise = some k) (h : getRM st k = some 0) :
    seed_from_rms_for_row row st week m = row := by
  unfold seed_from_rms_for_row
  split_ifs
  · rfl
  · simp [hk, h]
  · rfl

theorem seed_fires (row : Row) (st : St) (week : ℕ) (m : String → Option String)
    (k : String) (one_rm : ℚ)
    (h1 : ¬ (row.load_last ≠ Option.none ∧ row.load_last ≠ some 0))
    (h2 : week = 1 ∨ week = 2)
    (hk : m row.exercise = some k) (h4 : getRM st k = some one_rm) (h5 : one_rm ≠ 0) :
    seed_from_rms_for_row row st week m =
      { row with load_last := some (round_kg_to_2p5 (one_rm * percent_for_week week)) } := by
  unfold seed_from_rms_for_row
  rw [if_neg h1, if_neg (not_not_intro h2)]
  simp only [hk, h4, if_neg h5]

theorem seed_load_or (row : Row) (st : St) (week : ℕ) (m : String → Option String) :
    seed_from_rms_for_row row st week m = row ∨
    ∃ q, seed_from_rms_for_row row st week m = { row with load_last := some q } := by
  by_cases h1 : row.load_last ≠ Option.none ∧ row.load_last ≠ some 0
  · exact Or.inl (seed_id_of_load row st week m h1)
  · by_cases h2 : week = 1 ∨ week = 2
    · cases hk : m row.exercise with
      | none => exact Or.inl (seed_id_of_map row st week m hk)
      | some k =>
        cases hr : getRM st k with
        | none => exact Or.inl (seed_id_of_rm row st week m k hk hr)
        | some v =>
          by_cases hv : v = 0
          · subst hv
            exact Or.inl (seed_id_of_zero row st week m k hk hr)
          · exact Or.inr ⟨_, seed_fires row st week m k v h1 h2 hk hr hv⟩
    · exact Or.inl (seed_id_of_week row st week m h2)

@[simp] theorem seed_week (row : Row) (st : St) (week : ℕ) (m : String → Option String) :
    (seed_from_rms_for_row row st week m).week = row.week := by
  rcases seed_load_or row st week m with h | ⟨q, h⟩ <;> rw [h]

@[simp] theorem seed_day (row : Row) (st : St) (week : ℕ) (m : String → Option String) :
    (seed_from_rms_for_row row st week m).day = row.day := by
  rcases seed_load_or row st week m with h | ⟨q, h⟩ <;> rw [h]

@[simp] theorem seed_day_title (row : Row) (st : St) (week : ℕ) (m : String → Option String) :
    (seed_from_rms_for_row row st week m).day_title = row.day_title := by
  rcases seed_load_or row st week m with h | ⟨q, h⟩ <;> rw [h]

@[simp] theorem seed_exercise (row : Row) (st : St) (week : ℕ) (m : String → Option String) :
    (seed_from_rms_for_row row st week m).exercise = row.exercise := by
  rcases seed_load_or row st week m with h | ⟨q, h⟩ <;> rw [h]

@[simp] theorem seed_sets (row : Row) (st : St) (week : ℕ) (m : String → Option String) :
    (seed_from_rms_for_row row st week m).sets = row.sets := by
  rcases seed_load_or row st week m with h | ⟨q, h⟩ <;> rw [h]

@[simp] theorem seed_rep_low (row : Row) (st : St) (week : ℕ) (m : String → Option String) :
    (seed_from_rms_for_row row st week m).rep_low = row.rep_low := by
  rcases seed_load_or row st week m with h | ⟨q, h⟩ <;> rw [h]

@[simp] theorem seed_rep_high (row : Row) (st : St) (week : ℕ) (m : String → Option String) :
    (seed_from_rms_for_row row st week m).rep_high = row.rep_high := by
  rcases seed_load_or row st week m with h | ⟨q, h⟩ <;> rw [h]

@[simp] theorem seed_category (row : Row) (st : St) (week : ℕ) (m : String → Option String) :
    (seed_from_rms_for_row row st week m).category = row.category := by
  rcases seed_load_or row st week m with h | ⟨q, h⟩ <;> rw [h]

@[simp] theorem seed_increment (row : Row) (st : St) (week : ℕ) (m : String → Option String) :
    (seed_from_rms_for_row row st week m).increment = row.increment := by
  rcases seed_load_or row st week m with h | ⟨q, h⟩ <;> rw [h]

@[simp] theorem seed_s1 (row : Row) (st : St) (week : ℕ) (m : String → Option String) :
    (seed_from_rms_for_row row st week m).s1 = row.s1 := by
  rcases seed_load_or row st week m with h | ⟨q, h⟩ <;> rw [h]

@[simp] theorem seed_s2 (row : Row) (st : St) (week : ℕ) (m : String → Option String) :
    (seed_from_rms_for_row row st week m).s2 = row.s2 := by
  rcases seed_load_or row st week m with h | ⟨q, h⟩ <;> rw [h]

@[simp] theorem seed_s3 (row : Row) (st : St) (week : ℕ) (m : String → Option String) :
    (seed_from_rms_for_row row st week m).s3 = row.s3 := by
  rcases seed_load_or row st week m with h | ⟨q, h⟩ <;> rw [h]

@[simp] theorem seed_amrap (row : Row) (st : St) (week : ℕ) (m : String → Option String) :
    (seed_from_rms_for_row row st week m).amrap = row.amrap := by
  rcases seed_load_or row st week m with h | ⟨q, h⟩ <;> rw [h]

@[simp] theorem seed_new_load (row : Row) (st : St) (week : ℕ) (m : String → Option String) :
    (seed_from_rms_for_row row st week m).new_load = row.new_load := by
  rcases seed_load_or row st week m with h | ⟨q, h⟩ <;> rw [h]

@[simp] theorem seed_notes (row : Row) (st : St) (week : ℕ) (m : String → Option String) :
    (seed_from_rms_for_row row st week m).notes = row.notes := by
  rcases seed_load_or row st week m with h | ⟨q, h⟩ <;> rw [h]

theorem seed_idem (row : Row) (st : St) (week : ℕ) (m : String → Option String) :
    seed_from_rms_for_row (seed_from_rms_for_row row st week m) st week m
      = seed_from_rms_for_row row st week m := by
  by_cases h1 : row.load_last ≠ Option.none ∧ row.load_last ≠ some 0
  · rw [seed_id_of_load row st week m h1, seed_id_of_load row st week m h1]
  · by_cases h2 : week = 1 ∨ week = 2
    · cases hk : m row.exercise with
      | none =>
        rw [seed_id_of_map row st week m hk, seed_id_of_map row st week m hk]
      | some k =>
        cases hr : getRM st k with
        | none =>
          rw [seed_id_of_rm row st week m k hk hr, seed_id_of_rm row st week m k hk hr]
        | some v =>
          by_cases hv : v = 0
          · subst hv
            rw [seed_id_of_zero row st week m k hk hr, seed_id_of_zero row st week m k hk hr]
          · rw [seed_fires row st week m k v h1 h2 hk hr hv]
            by_cases hq0 : round_kg_to_2p5 (v * percent_for_week week) = 0
            · rw [seed_fires
                { row with load_last := some (round_kg_to_2p5 (v * percent_for_week week)) }
                st week m k v (by simp [hq0]) h2 hk hr hv]
            · rw [seed_id_of_load
                { row with load_last := some (round_kg_to_2p5 (v * percent_for_week week)) }
                st week m ⟨by simp, by simp [hq0]⟩]
    · rw [seed_id_of_week row st week m h2, seed_id_of_week row st week m h2]

@[simp] theorem reconMeta_week (t : String) (e : ProgramEntry) (r : Row) :
    (reconMeta t e r).week = r.week := by
  unfold reconMeta
  dsimp only
  split_ifs <;> rfl

@[simp] theorem reconMeta_day (t : String) (e : ProgramEntry) (r : Row) :
    (reconMeta t e r).day = r.day := by
  unfold reconMeta
  dsimp only
  split_ifs <;> rfl

@[simp] theorem reconMeta_day_title (t : String) (e : ProgramEntry) (r : Row) :
    (reconMeta t e r).day_title = t := by
  unfold reconMeta
  dsimp only
  split_ifs <;> rfl

@[simp] theorem reconMeta_exercise (t : String) (e : ProgramEntry) (r : Row) :
    (reconMeta t e r).exercise = r.exercise := by
  unfold reconMeta
  dsimp only
  split_ifs <;> rfl

@[simp] theorem reconMeta_sets (t : String) (e : ProgramEntry) (r : Row) :
    (reconMeta t e r).sets = e.sets := by
  unfold reconMeta
  dsimp only
  split_ifs <;> rfl

@[simp] theorem reconMeta_rep_low (t : String) (e : ProgramEntry) (r : Row) :
    (reconMeta t e r).rep_low = e.rep_low := by
  unfold reconMeta
  dsimp only
  split_ifs <;> rfl

@[simp] theorem reconMeta_rep_high (t : String) (e : ProgramEntry) (r : Row) :
    (reconMeta t e r).rep_high = e.rep_high := by
  unfold reconMeta
  dsimp only
  split_ifs <;> rfl

@[simp] theorem reconMeta_category (t : String) (e : ProgramEntry) (r : Row) :
    (reconMeta t e r).category = e.category := by
  unfold reconMeta
  dsimp only
  split_ifs <;> rfl

@[simp] theorem reconMeta_increment (t : String) (e : ProgramEntry) (r : Row) :
    (reconMeta t e r).increment = e.increment := by
  unfold reconMeta
  dsimp only
  split_ifs <;> rfl

@[simp] theorem reconMeta_load_last (t : String) (e : ProgramEntry) (r : Row) :
    (reconMeta t e r).load_last = r.load_last := by
  unfold reconMeta
  dsimp only
  split_ifs <;> rfl

@[simp] theorem reconMeta_s1 (t : String) (e : ProgramEntry) (r : Row) :
    (reconMeta t e r).s1 = r.s1 := by
  unfold reconMeta
  dsimp only
  split_ifs <;> rfl

@[simp] theorem reconMeta_s2 (t : String) (e : ProgramEntry) (r : Row) :
    (reconMeta t e r).s2 = r.s2 := by
  unfold reconMeta
  dsimp only
  split_ifs <;> rfl

@[simp] theorem reconMeta_s3 (t : String) (e : ProgramEntry) (r : Row) :
    (reconMeta t e r).s3 = r.s3 := by
  unfold reconMeta
  dsimp only
  split_ifs <;> rfl

theorem reconMeta_amrap (t : String) (e : ProgramEntry) (r : Row) :
    (reconMeta t e r).amrap = if e.category ≠ "accessory" then Option.none else r.amrap := by
  unfold reconMeta
  dsimp only
  split_ifs <;> rfl

@[simp] theorem reconMeta_new_load (t : String) (e : ProgramEntry) (r : Row) :
    (reconMeta t e r).new_load = r.new_load := by
  unfold reconMeta
  dsimp only
  split_ifs <;> rfl

@[simp] theorem reconMeta_notes (t : String) (e : ProgramEntry) (r : Row) :
    (reconMeta t e r).notes = r.notes := by
  unfold reconMeta
  dsimp only
  split_ifs <;> rfl

/-- The reconcile branch is the metadata sync followed by the seed attempt:
when the load guard fails, the seed function itself returns unchanged. -/
theorem reconcileRow_eq_seed (t : String) (e : ProgramEntry) (st : St) (week : ℕ) (r : Row) :
    reconcileRow t e st week r
      = seed_from_rms_for_row (reconMeta t e r) st week COMPOUND_RM_MAP := by
  unfold reconcileRow reconMeta
  dsimp only
  split_ifs with h1 h2
  · rfl
  · rw [seed_id_of_load _ st week COMPOUND_RM_MAP]
    constructor
    · intro hc
      exact h2 (Or.inl hc)
    · intro hc
      exact h2 (Or.inr hc)
  · rfl
  · rw [seed_id_of_load _ st week COMPOUND_RM_MAP]
    constructor
    · intro hc
      exact (by assumption : ¬ _) (Or.inl hc)
    · intro hc
      exact (by assumption : ¬ _) (Or.inr hc)

theorem reconMeta_fix (t : String) (e : ProgramEntry) (st : St) (week : ℕ) (r : Row) :
    reconMeta t e (seed_from_rms_for_row (reconMeta t e r) st week COMPOUND_RM_MAP)
      = seed_from_rms_for_row (reconMeta t e r) st week COMPOUND_RM_MAP := by
  ext1
  case amrap =>
    rw [reconMeta_amrap]
    by_cases hc : e.category = "accessory"
    · rw [if_neg (not_not_intro hc)]
    · rw [if_pos hc, seed_amrap, reconMeta_amrap, if_pos hc]
  all_goals simp

theorem reconcile_idem (t : String) (e : ProgramEntry) (st : St) (week : ℕ) (r : Row) :
    reconcileRow t e st week (reconcileRow t e st week r) = reconcileRow t e st week r := by
  rw [reconcileRow_eq_seed t e st week r, reconcileRow_eq_seed, reconMeta_fix, seed_idem]

theorem fresh_reconciled (week day : ℕ) (t : String) (e : ProgramEntry) (st : St) :
    reconcileRow t e st week (freshRow week day t e st) = freshRow week day t e st := by
  rw [reconcileRow_eq_seed]
  have hm : reconMeta t e (freshRow week day t e st) = freshRow week day t e st := by
    unfold freshRow
    ext1
    case amrap =>
      rw [reconMeta_amrap]
      split_ifs <;> simp
    all_goals simp
  rw [hm]
  unfold freshRow
  rw [seed_idem]

theorem keyMatch_iff (w d : ℕ) (n : String) (r : Row) :
    keyMatch w d n r = true ↔ r.week = w ∧ r.day = d ∧ r.exercise = n := by
  simp [keyMatch, Bool.and_eq_true, beq_iff_eq, and_assoc]

@[simp] theorem keyMatch_reconcile (w d : ℕ) (n : String) (t : String) (e : ProgramEntry)
    (st : St) (week : ℕ) (x : Row) :
    keyMatch w d n (reconcileRow t e st week x) = keyMatch w d n x := by
  rw [reconcileRow_eq_seed]
  simp [keyMatch]

theorem keyMatch_fresh (week d : ℕ) (t : String) (e : ProgramEntry) (st : St) :
    keyMatch week d e.name (freshRow week d t e st) = true := by
  unfold freshRow
  simp [keyMatch]

theorem keyMatch_false_of_ne (w d1 d2 : ℕ) (n1 n2 : String)
    (hne : (d1, n1) ≠ (d2, n2)) (r : Row) (h : keyMatch w d1 n1 r = true) :
    keyMatch w d2 n2 r = false := by
  rcases (keyMatch_iff w d1 n1 r).mp h with ⟨hw, hd, hx⟩
  rw [Bool.eq_false_iff]
  intro hc
  rcases (keyMatch_iff w d2 n2 r).mp hc with ⟨hw2, hd2, hx2⟩
  exact hne (by rw [← hd, ← hx, hd2, hx2])

theorem find?_of_any (p : Row → Bool) (l : List Row) (h : l.any p = true) :
    ∃ r, l.find? p = some r := by
  induction l with
  | nil => simp at h
  | cons a t ih =>
    by_cases ha : p a
    · exact ⟨a, List.find?_cons_of_pos t ha⟩
    · rw [List.any_cons] at h
      rcases Bool.or_eq_true_iff.mp h with h1 | h2
      · exact absurd h1 ha
      · obtain ⟨r, hr⟩ := ih h2
        exact ⟨r, by rw [List.find?_cons_of_neg t (by simpa using ha)]; exact hr⟩

theorem any_of_find? (p : Row → Bool) (l : List Row) (r : Row) (h : l.find? p = some r) :
    l.any p = true :=
  List.any_eq_true.mpr ⟨r, List.mem_of_find?_eq_some h, List.find?_some h⟩

theorem mapFirst_find? (p : Row → Bool) (f : Row → Row)
    (hf : ∀ x, p x = true → p (f x) = true) (l : List Row) (r : Row)
    (h : l.find? p = some r) : (mapFirst p f l).find? p = some (f r) := by
  induction l with
  | nil => simp [List.find?] at h
  | cons a t ih =>
    by_cases ha : p a
    · rw [List.find?_cons_of_pos t ha] at h
      injection h with h
      subst h
      unfold mapFirst
      rw [if_pos ha]
      exact List.find?_cons_of_pos t (hf _ ha)
    · rw [List.find?_cons_of_neg t (by simpa using ha)] at h
      unfold mapFirst
      rw [if_neg ha, List.find?_cons_of_neg (mapFirst p f t) (by simpa using ha)]
      exact ih h

theorem mapFirst_id (p : Row → Bool) (f : Row → Row) (l : List Row) (r : Row)
    (h : l.find? p = some r) (hr : f r = r) : mapFirst p f l = l := by
  induction l with
  | nil => rfl
  | cons a t ih =>
    by_cases ha : p a
    · rw [List.find?_cons_of_pos t ha] at h
      injection h with h
      subst h
      unfold mapFirst
      rw [if_pos ha, hr]
    · rw [List.find?_cons_of_neg t (by simpa using ha)] at h
      unfold mapFirst
      rw [if_neg ha, ih h]

theorem find?_mapFirst_of_disj (p q : Row → Bool) (f : Row → Row)
    (h : ∀ x, q x = true → p x = false ∧ p (f x) = false) (l : List Row) :
    (mapFirst q f l).find? p = l.find? p := by
  induction l with
  | nil => rfl
  | cons a t ih =>
    by_cases ha : q a
    · obtain ⟨h1, h2⟩ := h a ha
      unfold mapFirst
      rw [if_pos ha, List.find?_cons_of_neg t (by simp [h2]),
        List.find?_cons_of_neg t (by simp [h1])]
    · unfold mapFirst
      rw [if_neg ha]
      by_cases hpa : p a
      · rw [List.find?_cons_of_pos t hpa, List.find?_cons_of_pos (mapFirst q f t) hpa]
      · rw [List.find?_cons_of_neg (mapFirst q f t) (by simpa using hpa),
          List.find?_cons_of_neg t (by simpa using hpa)]
        exact ih

theorem find?_append_some (p : Row → Bool) (l l2 : List Row) (r : Row)
    (h : l.find? p = some r) : (l ++ l2).find? p = some r := by
  rw [List.find?_append, h]
  rfl

theorem find?_append_of_none (p : Row → Bool) (l l2 : List Row)
    (h : l.find? p = Option.none) : (l ++ l2).find? p = l2.find? p := by
  rw [List.find?_append, h]
  rfl

theorem find?_none_of_any_false (p : Row → Bool) (l : List Row)
    (h : ¬ l.any p = true) : l.find? p = Option.none := by
  rw [List.find?_eq_none]
  intro x hx hpx
  exact h (List.any_eq_true.mpr ⟨x, hx, hpx⟩)

theorem mapFirst_mem (p : Row → Bool) (f : Row → Row) (l : List Row) (x : Row)
    (h : x ∈ mapFirst p f l) : x ∈ l ∨ ∃ y, y ∈ l ∧ x = f y := by
  induction l with
  | nil => simp [mapFirst] at h
  | cons a t ih =>
    unfold mapFirst at h
    split_ifs at h with ha
    · rcases List.mem_cons.mp h with h1 | h1
      · exact Or.inr ⟨a, List.mem_cons_self a t, h1⟩
      · exact Or.inl (List.mem_cons_of_mem a h1)
    · rcases List.mem_cons.mp h with h1 | h1
      · exact Or.inl (h1 ▸ List.mem_cons_self a t)
      · rcases ih h1 with h2 | ⟨y, hy, h2⟩
        · exact Or.inl (List.mem_cons_of_mem a h2)
        · exact Or.inr ⟨y, List.mem_cons_of_mem a hy, h2⟩

theorem foldl_preserve {K σ : Type} (g : K → σ → σ) (P : K → σ → Prop) (es : List K)
    (h3 : ∀ k k2, k ∈ es → k2 ∈ es → ∀ s, P k s → P k (g k2 s)) (l : List K)
    (hl : ∀ x ∈ l, x ∈ es) (k : K) (hk : k ∈ es) :
    ∀ (s : σ), P k s → P k (l.foldl (fun s x => g x s) s) := by
  induction l with
  | nil => exact fun s h => h
  | cons a t ih =>
    intro s h
    rw [List.foldl_cons]
    exact ih (fun x hx => hl x (List.mem_cons_of_mem a hx)) (g a s)
      (h3 k a hk (hl a (List.mem_cons_self a t)) s h)

theorem foldl_establish {K σ : Type} (g : K → σ → σ) (P : K → σ → Prop) (es : List K)
    (h1 : ∀ k s, P k (g k s))
    (h3 : ∀ k k2, k ∈ es → k2 ∈ es → ∀ s, P k s → P k (g k2 s)) (l : List K)
    (hl : ∀ x ∈ l, x ∈ es) :
    ∀ (s : σ), ∀ k ∈ l, P k (l.foldl (fun s x => g x s) s) := by
  induction l with
  | nil =>
    intro s k hk
    cases hk
  | cons a t ih =>
    intro s k hk
    rw [List.foldl_cons]
    rcases List.mem_cons.mp hk with rfl | hk2
    · exact foldl_preserve g P es h3 t (fun x hx => hl x (List.mem_cons_of_mem k hx)) k
        (hl k (List.mem_cons_self k t)) (g k s) (h1 k s)
    · exact ih (fun x hx => hl x (List.mem_cons_of_mem a hx)) (g a s) k hk2

theorem foldl_fix {K σ : Type} (g : K → σ → σ) (P : K → σ → Prop)
    (h2 : ∀ k s, P k s → g k s = s) (l : List K) :
    ∀ (s : σ), (∀ k ∈ l, P k s) → l.foldl (fun s x => g x s) s = s := by
  induction l with
  | nil => exact fun s _ => rfl
  | cons a t ih =>
    intro s h
    rw [List.foldl_cons, h2 a s (h a (List.mem_cons_self a t))]
    exact ih s (fun k hk => h k (List.mem_cons_of_mem a hk))

theorem processEntry_settles (st : St) (week : ℕ) (k : ℕ × String × ProgramEntry)
    (rows : List Row) : Settled st week k (processEntry st week k rows) := by
  unfold processEntry Settled
  dsimp only
  by_cases h : rows.any (keyMatch week k.1 k.2.2.name) = true
  · rw [if_pos h]
    obtain ⟨r, hr⟩ := find?_of_any _ rows h
    refine ⟨reconcileRow k.2.1 k.2.2 st week r, ?_, reconcile_idem k.2.1 k.2.2 st week r⟩
    exact mapFirst_find? _ _ (fun x hx => by rw [keyMatch_reconcile]; exact hx) rows r hr
  · rw [if_neg h]
    refine ⟨freshRow week k.1 k.2.1 k.2.2 st, ?_, fresh_reconciled week k.1 k.2.1 k.2.2 st⟩
    rw [find?_append_of_none _ rows _ (find?_none_of_any_false _ rows h)]
    exact List.find?_cons_of_pos [] (keyMatch_fresh week k.1 k.2.1 k.2.2 st)

theorem processEntry_id (st : St) (week : ℕ) (k : ℕ × String × ProgramEntry)
    (rows : List Row) (h : Settled st week k rows) :
    processEntry st week k rows = rows := by
  obtain ⟨r, hf, hrec⟩ := h
  unfold processEntry
  dsimp only
  rw [if_pos (any_of_find? _ rows r hf)]
  exact mapFirst_id _ _ rows r hf hrec

theorem processEntry_preserves (st : St) (week : ℕ) (k k2 : ℕ × String × ProgramEntry)
    (hne : (k.1, k.2.2.name) ≠ (k2.1, k2.2.2.name)) (rows : List Row)
    (h : Settled st week k rows) : Settled st week k (processEntry st week k2 rows) := by
  obtain ⟨r, hf, hrec⟩ := h
  unfold processEntry
  dsimp only
  by_cases ha : rows.any (keyMatch week k2.1 k2.2.2.name) = true
  · rw [if_pos ha]
    refine ⟨r, ?_, hrec⟩
    rw [find?_mapFirst_of_disj _ _ _ ?_ rows]
    · exact hf
    · intro x hx
      refine ⟨keyMatch_false_of_ne week k2.1 k.1 k2.2.2.name k.2.2.name
        (fun hc => hne hc.symm) x hx, ?_⟩
      rw [keyMatch_reconcile]
      exact keyMatch_false_of_ne week k2.1 k.1 k2.2.2.name k.2.2.name
        (fun hc => hne hc.symm) x hx
  · rw [if_neg ha]
    exact ⟨r, find?_append_some _ rows _ r hf, hrec⟩

theorem flatEntries_keys_nodup :
    (flatEntries.map (fun k => (k.1, k.2.2.name))).Nodup := by decide

/-- Claim C5: the week seeder is idempotent — running it a second time on its
own output (same week, same tested maxes) returns the log table unchanged:
no duplicate rows, no metadata difference, no overwritten load. -/
theorem claim_C5_idempotent (week : ℕ) (st : St) (rows : List Row) :
    init_week_rows week st (init_week_rows week st rows) = init_week_rows week st rows := by
  unfold init_week_rows
  have h3 : ∀ k k2, k ∈ flatEntries → k2 ∈ flatEntries → ∀ s,
      Settled st week k s → Settled st week k (processEntry st week k2 s) := by
    intro k k2 hk hk2 s hP
    by_cases hkey : (k.1, k.2.2.name) = (k2.1, k2.2.2.name)
    · have hkk : k = k2 :=
        List.inj_on_of_nodup_map flatEntries_keys_nodup hk hk2 hkey
      subst hkk
      rw [processEntry_id st week k s hP]
      exact hP
    · exact processEntry_preserves st week k k2 hkey s hP
  apply foldl_fix (fun k s => processEntry st week k s) (Settled st week)
    (fun k s h => processEntry_id st week k s h) flatEntries
  intro k hk
  exact foldl_establish (fun k s => processEntry st week k s) (Settled st week) flatEntries
    (fun k s => processEntry_settles st week k s) h3 flatEntries (fun x hx => hx) rows k hk

/-- Claim C3 is false on the code: seeding week 3 with a week-2 Back Squat row
whose computed next load is 100 leaves the freshly created week-3 row with an
absent load — no carry-forward from the previous week happens. -/
theorem claim_C3_counterexample :
    ((init_week_rows 3 st140 [rowBSw2]).find? (keyMatch 3 4 "Back Squat")).map Row.load_last
        = some Option.none ∧
    some Option.none ≠ some (some (100 : ℚ)) := by
  constructor
  · decide
  · decide

/-- Claim C3 as amended: for every week past 2 the seeder performs no load
seeding at all — the RM seeding helper returns every row unchanged, and every
row of the output either keeps a load that some input row already had or has
an absent load (fresh rows are created with an absent load). -/
theorem claim_C3_amended (week : ℕ) (hw : 2 < week) (st : St) (rows : List Row) :
    (∀ (r : Row) (m : String → Option String), seed_from_rms_for_row r st week m = r) ∧
    (∀ r2 ∈ init_week_rows week st rows,
      r2.load_last = Option.none ∨ ∃ r ∈ rows, r2.load_last = r.load_last) := by
  have hseed : ∀ (r : Row) (m : String → Option String),
      seed_from_rms_for_row r st week m = r := by
    intro r m
    apply seed_id_of_week
    omega
  refine ⟨hseed, ?_⟩
  unfold init_week_rows
  have hinv : ∀ (l : List (ℕ × String × ProgramEntry)) (s : List Row),
      (∀ r2 ∈ s, r2.load_last = Option.none ∨ ∃ r ∈ rows, r2.load_last = r.load_last) →
      ∀ r2 ∈ l.foldl (fun rs k => processEntry st week k rs) s,
        r2.load_last = Option.none ∨ ∃ r ∈ rows, r2.load_last = r.load_last := by
    intro l
    induction l with
    | nil => exact fun s h => h
    | cons a t ih =>
      intro s h
      rw [List.foldl_cons]
      apply ih
      intro r2 hr2
      unfold processEntry at hr2
      dsimp only at hr2
      split_ifs at hr2 with ha
      · rcases mapFirst_mem _ _ s r2 hr2 with hmem | ⟨y, hy, rfl⟩
        · exact h r2 hmem
        · have hl : (reconcileRow a.2.1 a.2.2 st week y).load_last = y.load_last := by
            rw [reconcileRow_eq_seed, hseed]
            simp
          rw [hl]
          exact h y hy
      · rcases List.mem_append.mp hr2 with hmem | hmem
        · exact h r2 hmem
        · rw [List.mem_singleton] at hmem
          subst hmem
          left
          unfold freshRow
          rw [hseed]
  exact hinv flatEntries rows (fun r hr => Or.inr ⟨r, hr, rfl⟩)

theorem claim_C3_amended_witness :
    2 < 3 ∧ seed_from_rms_for_row rowBSw2 st140 3 COMPOUND_RM_MAP = rowBSw2 :=
  ⟨by decide, (claim_C3_amended 3 (by decide) st140 [rowBSw2]).1 rowBSw2 COMPOUND_RM_MAP⟩

/-- Claim C4 is false on the code: seeding week 1 from a tested squat max of
140 kg uses pct(1) = 0.55, giving 140 * 0.55 = 77 rounded to 77.5 — not the
claimed 87.5 (which would need pct(1) = 0.625). -/
theorem claim_C4_counterexample :
    (seed_from_rms_for_row rowBS st140 1 COMPOUND_RM_MAP).load_last = some (155/2) ∧
    (155/2 : ℚ) ≠ (175/2 : ℚ) := by
  constructor
  · rw [seed_fires rowBS st140 1 COMPOUND_RM_MAP "squat" 140 (by decide) (Or.inl rfl)
      (by decide) (by decide) (by norm_num)]
    show some (round_kg_to_2p5 (140 * percent_for_week 1)) = some (155/2)
    rw [round_kg_eq_round_to_2p5q]
    norm_num [percent_for_week, round_to_2p5q, pyRound2, pyRound, ratFloor_eq_floor]
  · norm_num

/-- Claim C4 as amended: when seeding week 1 or 2, a row with an absent (or
zero) load whose exercise maps to a tested lift with a known non-zero max gets
the load roundToIncrement(testedMax * pct(week)) with pct(1) = 0.55 and
pct(2) = 0.675; in particular week 1 with a squat max of 140 kg seeds 77.5. -/
theorem claim_C4_amended (week : ℕ) (row : Row) (st : St) (rm_key : String) (mx : ℚ)
    (hw : week = 1 ∨ week = 2)
    (hload : row.load_last = Option.none ∨ row.load_last = some 0)
    (hmap : COMPOUND_RM_MAP row.exercise = some rm_key)
    (hst : getRM st rm_key = some mx) (hmx : mx ≠ 0) :
    (seed_from_rms_for_row row st week COMPOUND_RM_MAP).load_last
        = some (round_to_2p5q (mx * percent_for_week week)) ∧
    percent_for_week 1 = 11/20 ∧ percent_for_week 2 = 27/40 := by
  refine ⟨?_, rfl, rfl⟩
  rw [seed_fires row st week COMPOUND_RM_MAP rm_key mx
    (by rcases hload with h | h <;> simp [h]) hw hmap hst hmx]
  show some (round_kg_to_2p5 (mx * percent_for_week week)) = _
  rw [round_kg_eq_round_to_2p5q]

theorem claim_C4_amended_witness :
    (1 = 1 ∨ 1 = 2) ∧
    (seed_from_rms_for_row rowBS st140 1 COMPOUND_RM_MAP).load_last = some (155/2) := by
  refine ⟨Or.inl rfl, ?_⟩
  rw [(claim_C4_amended 1 rowBS st140 "squat" 140 (Or.inl rfl) (Or.inl rfl) (by decide)
    (by decide) (by norm_num)).1]
  norm_num [percent_for_week, round_to_2p5q, pyRound2, pyRound, ratFloor_eq_floor]

/-- Claim C8: reconciling an existing row updates only the metadata fields
(day title, sets, rep range, category, increment), clears the AMRAP field
whenever the reconciled category is not accessory, and leaves the row's key,
its per-set reps, notes, computed next load, and any present non-zero used
load unchanged. -/
theorem claim_C8_reconcile_frame (t : String) (e : ProgramEntry) (st : St) (week : ℕ)
    (r : Row) :
    (reconcileRow t e st week r).week = r.week ∧
    (reconcileRow t e st week r).day = r.day ∧
    (reconcileRow t e st week r).exercise = r.exercise ∧
    (reconcileRow t e st week r).day_title = t ∧
    (reconcileRow t e st week r).sets = e.sets ∧
    (reconcileRow t e st week r).rep_low = e.rep_low ∧
    (reconcileRow t e st week r).rep_high = e.rep_high ∧
    (reconcileRow t e st week r).category = e.category ∧
    (reconcileRow t e st week r).increment = e.increment ∧
    (reconcileRow t e st week r).s1 = r.s1 ∧
    (reconcileRow t e st week r).s2 = r.s2 ∧
    (reconcileRow t e st week r).s3 = r.s3 ∧
    (reconcileRow t e st week r).notes = r.notes ∧
    (reconcileRow t e st week r).new_load = r.new_load ∧
    (e.category ≠ "accessory" → (reconcileRow t e st week r).amrap = Option.none) ∧
    (r.load_last ≠ Option.none ∧ r.load_last ≠ some 0 →
      (reconcileRow t e st week r).load_last = r.load_last) := by
  rw [reconcileRow_eq_seed]
  refine ⟨by simp, by simp, by simp, by simp, by simp, by simp, by simp, by simp, by simp,
    by simp, by simp, by simp, by simp, by simp, ?_, ?_⟩
  · intro hc
    rw [seed_amrap, reconMeta_amrap, if_pos hc]
  · intro hld
    rw [seed_id_of_load (reconMeta t e r) st week COMPOUND_RM_MAP (by simpa using hld)]
    simp

theorem claim_C8_witness :
    (reconcileRow "Day 1 – Push (Chest/Shoulders/Triceps)" entryC8 st140 5 rowC8).amrap
        = Option.none ∧
    (reconcileRow "Day 1 – Push (Chest/Shoulders/Triceps)" entryC8 st140 5 rowC8).load_last
        = rowC8.load_last := by
  obtain ⟨h1, h2, h3, h4, h5, h6, h7, h8, h9, h10, h11, h12, h13, h14, hAm, hLd⟩ :=
    claim_C8_reconcile_frame "Day 1 – Push (Chest/Shoulders/Triceps)" entryC8 st140 5 rowC8
  exact ⟨hAm (by decide), hLd ⟨by decide, by decide⟩⟩

end HT
